import Mathlib

/-!
Verification of the ROBOT_ARM web client core (WebSocket connection manager,
message router, frame queue, heartbeat scheduler) against its specification.

The definitions below are shallow embeddings of the JavaScript sources:
  * `src/unnamed/part_001`  — WebSocket manager (backoff, heartbeat, router,
    broadcast, sessionID, beforeunload handler)
  * `src/video_my.js` / `src/scripts/video.js` — frame queue and decode loop

JavaScript numbers appearing in the backoff computation (1000 * 1.5^k up to
the 30000 cap) are exactly representable IEEE-754 doubles, so the backoff
arithmetic is modelled exactly with rationals.
-/

namespace RobotArm

/-! ### JSON values and JavaScript truthiness

Model of the values produced by `JSON.parse`.  `NaN` cannot be produced by
`JSON.parse`, so numbers are modelled as rationals and numeric truthiness
as `≠ 0`. -/

inductive JVal where
  | jnull : JVal
  | jbool : Bool → JVal
  | jnum : ℚ → JVal
  | jstr : String → JVal
  | jarr : List JVal → JVal
  | jobj : List (String × JVal) → JVal

/-- JavaScript truthiness of a parsed JSON value. -/
def truthy : JVal → Bool
  | .jnull => false
  | .jbool b => b
  | .jnum q => q != 0
  | .jstr s => s != ""
  | .jarr _ => true
  | .jobj _ => true

/-- `typeof v === 'object'` for a parsed JSON value (true for objects,
arrays and `null`). -/
def isObjType : JVal → Bool
  | .jnull => true
  | .jarr _ => true
  | .jobj _ => true
  | _ => false

/-- JavaScript member access `v[k]` on a parsed JSON value: a field of an
object, `undefined` (`none`) otherwise. -/
def jsGet : JVal → String → Option JVal
  | .jobj fields, k => (fields.find? (fun p => p.1 == k)).map (fun p => p.2)
  | _, _ => none

/-! ### Message classifier (`ws.onmessage` in `src/unnamed/part_001`)

The classifier evaluates, in order, the guards of the `if`/`else if` chain:

    if (obj && obj.payload && typeof obj.payload === 'object' && obj.payload.type)
        broadcast(obj.payload.type, obj.payload);
    else if (obj && obj.type)          broadcast(obj.type, obj);
    else if (obj && obj.topic)         broadcast(obj.topic, obj);
    else if (obj && obj.connection_count !== undefined)
                                       broadcast('connection_count', obj);
    else                               broadcast('json', obj);
-/

/-- Guard and result of the nested-payload rule:
`obj.payload && typeof obj.payload === 'object' && obj.payload.type`,
producing `(obj.payload.type, obj.payload)` when it holds. -/
def payloadRule (obj : JVal) : Option (JVal × JVal) :=
  match jsGet obj "payload" with
  | some p =>
    if truthy p && isObjType p then
      match jsGet p "type" with
      | some ty => if truthy ty then some (ty, p) else none
      | none => none
    else none
  | none => none

/-- Guard and result of a truthy top-level field rule (`obj && obj.k`). -/
def fieldRule (obj : JVal) (k : String) : Option JVal :=
  match jsGet obj k with
  | some v => if truthy v then some v else none
  | none => none

/-- Topic/data selection for a parsed JSON value, mirroring the
`if`/`else if` chain of `ws.onmessage` in `src/unnamed/part_001`. -/
def classify (obj : JVal) : JVal × JVal :=
  if truthy obj then
    match payloadRule obj with
    | some r => r
    | none =>
      match fieldRule obj "type" with
      | some ty => (ty, obj)
      | none =>
        match fieldRule obj "topic" with
        | some tp => (tp, obj)
        | none =>
          match jsGet obj "connection_count" with
          | some _ => (JVal.jstr "connection_count", obj)
          | none => (JVal.jstr "json", obj)
  else (JVal.jstr "json", obj)

/-- Routing of a text frame: `JSON.parse` succeeding with value `v` routes
through `classify`; a parse failure broadcasts `('text', raw)`. -/
def routeText (parsed : Option JVal) (raw : String) : JVal × JVal :=
  match parsed with
  | some v => classify v
  | none => (JVal.jstr "text", JVal.jstr raw)

/-! ### Frame queue (`video-frame` listener in `src/video_my.js`)

    if (frameQueue.length >= MAX_QUEUE) { frameQueue.shift(); }
    frameQueue.push(buffer);
-/

/-- Queue capacity (`MAX_QUEUE`). -/
def MAX_QUEUE : Nat := 3

/-- One push of a binary frame: evict the oldest element when the queue is
at capacity, then append. -/
def pushFrame {α : Type} (q : List α) (f : α) : List α :=
  if MAX_QUEUE ≤ q.length then q.tail ++ [f] else q ++ [f]

/-! ### Reconnect backoff (`ws.onclose` in `src/unnamed/part_001`)

    setTimeout(() => {
        reconnectDelay = Math.min(reconnectDelay * 1.5, MAX_RECONNECT);
        connectWebSocket(url);
    }, reconnectDelay);

The `setTimeout` wait uses the value of `reconnectDelay` current at close
time; the multiplicative update only runs when the timer fires, before the
next attempt.  `ws.onopen` resets `reconnectDelay` to 1000. -/

/-- `MAX_RECONNECT` (milliseconds). -/
def MAX_RECONNECT : ℚ := 30000

/-- The update applied to `reconnectDelay` when the reconnect timer fires. -/
def stepDelay (d : ℚ) : ℚ := min (d * (3 / 2)) MAX_RECONNECT

/-- Wait (in ms) scheduled by `setTimeout` after the `k`-th consecutive
connection failure following a successful open: the value of
`reconnectDelay` at that close event, i.e. the reset value 1000 updated by
`stepDelay` once per previously fired reconnect timer. -/
def scheduledDelay (k : Nat) : ℚ := stepDelay^[k - 1] 1000

/-! ### Listener registry and broadcast (`src/unnamed/part_001`)

    function addEventListener(event, callback) {
        if (!listeners[event]) { listeners[event] = []; }
        listeners[event].push(callback);
    }
    function broadcast(event, data) {
        if (listeners[event]) {
            listeners[event].forEach(cb => {
                try { cb(data); } catch (err) { console.error(...); }
            });
        }
    }

A callback is modelled as a function from the broadcast data and a world
state to a new world state together with `some err` when the callback
throws (the `catch` branch logs `err` and the `forEach` loop continues). -/

/-- A registered callback: an identifier (its identity in the registry) and
its action on a world state, returning `some err` when it throws. -/
structure Cb (σ δ : Type) where
  id : Nat
  run : δ → σ → σ × Option String

/-- The `listeners` table: topics mapped to callback lists in registration
order. -/
abbrev Registry (σ δ : Type) : Type := List (String × List (Cb σ δ))

/-- `listeners[event]`: the callback list for a topic, if present. -/
def lookupL {σ δ : Type} (reg : Registry σ δ) (ev : String) :
    Option (List (Cb σ δ)) :=
  (reg.find? (fun p => p.1 == ev)).map (fun p => p.2)

/-- `addEventListener(event, callback)`: create the list on first use,
then append. -/
def addEventListener {σ δ : Type} (reg : Registry σ δ) (ev : String)
    (cb : Cb σ δ) : Registry σ δ :=
  match lookupL reg ev with
  | none => reg ++ [(ev, [cb])]
  | some _ => reg.map (fun p => if p.1 == ev then (p.1, p.2 ++ [cb]) else p)

/-- One iteration of the `forEach` loop in `broadcast`: invoke the
callback inside `try`/`catch`, thread the world, and append the invocation
(with its caught error, if any) to the log. -/
def broadcastStep {σ δ : Type} (d : δ)
    (acc : σ × List (Nat × Option String)) (cb : Cb σ δ) :
    σ × List (Nat × Option String) :=
  ((cb.run d acc.1).1, acc.2 ++ [(cb.id, (cb.run d acc.1).2)])

/-- `broadcast(event, data)` on a world `w`: invoke every registered
callback for the topic in order, catching (and logging) each callback's
error; returns the final world and the log of `(id, caught error)` for each
invocation.  A topic with no list is a no-op. -/
def broadcast {σ δ : Type} (reg : Registry σ δ) (ev : String) (d : δ)
    (w : σ) : σ × List (Nat × Option String) :=
  match lookupL reg ev with
  | none => (w, [])
  | some cbs => cbs.foldl (broadcastStep d) (w, [])

/-! ### Connection state and heartbeat (`src/unnamed/part_001`)

State of the module-level variables `ws.readyState`, `reconnectDelay`,
`heartbeatInterval`, `sessionID` and the sequence of messages handed to
`ws.send`.  The single `setInterval` timer is represented by the time of
its next firing (`startHeartbeat` always clears the previous interval
before installing a new one, see the timer-table model below). -/

/-- An outgoing heartbeat-style message
`{ type, timestamp, sessionID }`. -/
structure HBMsg where
  type : String
  timestamp : Nat
  sessionID : String
deriving DecidableEq

/-- State of the WebSocket module, with outgoing messages of type `μ`. -/
structure WSState (μ : Type) where
  wsOpen : Bool
  reconnectDelay : ℚ
  hbNext : Option Nat
  sessionID : String
  sent : List μ
deriving DecidableEq

/-- `HEARTBEAT_INTERVAL` (milliseconds). -/
def HEARTBEAT_INTERVAL : Nat := 10000

/-- `sendCommand(obj)`: transmit only when the socket is open; otherwise
the message is logged and dropped, leaving the state unchanged. -/
def sendCommand {μ : Type} (s : WSState μ) (m : μ) : WSState μ :=
  if s.wsOpen then { s with sent := s.sent ++ [m] } else s

/-- The heartbeat payload
`{ type: 'heartbeat', timestamp: Date.now(), sessionID }`. -/
def mkHeartbeat (t : Nat) (sid : String) : HBMsg :=
  { type := "heartbeat", timestamp := t, sessionID := sid }

/-- `sendHeartbeat()` at time `t`: send the heartbeat payload if the socket
is open. -/
def sendHeartbeat (t : Nat) (s : WSState HBMsg) : WSState HBMsg :=
  if s.wsOpen then sendCommand s (mkHeartbeat t s.sessionID) else s

/-- `stopHeartbeat()`: clear the heartbeat interval. -/
def stopHeartbeat (s : WSState HBMsg) : WSState HBMsg :=
  { s with hbNext := none }

/-- `startHeartbeat()` at time `t`: clear any existing interval, send one
heartbeat immediately, then install the interval (next firing at
`t + HEARTBEAT_INTERVAL`). -/
def startHeartbeat (t : Nat) (s : WSState HBMsg) : WSState HBMsg :=
  { sendHeartbeat t (stopHeartbeat s) with
    hbNext := some (t + HEARTBEAT_INTERVAL) }

/-- `ws.onopen` at time `t`: mark the socket open, reset the backoff and
start the heartbeat. -/
def onopen (t : Nat) (s : WSState HBMsg) : WSState HBMsg :=
  startHeartbeat t { s with wsOpen := true, reconnectDelay := 1000 }

/-- `ws.onclose`: mark the socket closed and stop the heartbeat. -/
def onclose (s : WSState HBMsg) : WSState HBMsg :=
  stopHeartbeat { s with wsOpen := false }

/-- External transport events driving the handlers. -/
inductive WSEv where
  | openEv : WSEv
  | closeEv : WSEv
deriving DecidableEq

/-- Dispatch one transport event at time `t`. -/
def applyEv (e : WSEv) (t : Nat) (s : WSState HBMsg) : WSState HBMsg :=
  match e with
  | .openEv => onopen t s
  | .closeEv => onclose s

/-- One firing of the heartbeat interval at time `h`: run `sendHeartbeat`
and advance the timer one period. -/
def tickFire (h : Nat) (s : WSState HBMsg) : WSState HBMsg :=
  { sendHeartbeat h s with hbNext := some (h + HEARTBEAT_INTERVAL) }

/-- Fire every due heartbeat tick with firing time `≤ T` (fuel-bounded;
each firing advances the timer by a full period). -/
def fireTicksLe : Nat → WSState HBMsg → Nat → WSState HBMsg
  | 0, s, _ => s
  | fuel + 1, s, T =>
    match s.hbNext with
    | none => s
    | some h => if h ≤ T then fireTicksLe fuel (tickFire h s) T else s

/-- Fire every due heartbeat tick with firing time strictly before `t`
(ticks racing an external event at time `t` are processed first only when
strictly earlier). -/
def fireTicksLt : Nat → WSState HBMsg → Nat → WSState HBMsg
  | 0, s, _ => s
  | fuel + 1, s, t =>
    match s.hbNext with
    | none => s
    | some h => if h < t then fireTicksLt fuel (tickFire h s) t else s

/-- Event-loop run: process the (time-ordered) external events, firing due
heartbeat ticks before each event, then fire remaining ticks up to the
observation horizon `T`. -/
def runEvents : WSState HBMsg → List (Nat × WSEv) → Nat → WSState HBMsg
  | s, [], T => fireTicksLe (T + 1) s T
  | s, (t, e) :: rest, T =>
    runEvents (applyEv e t (fireTicksLt (t + 1) s t)) rest T

/-- Initial module state with a given session identifier: socket not open,
backoff at its base, no heartbeat interval, nothing sent. -/
def initWS (sid : String) : WSState HBMsg :=
  { wsOpen := false, reconnectDelay := 1000, hbNext := none,
    sessionID := sid, sent := [] }

/-! ### Session identifier and the `beforeunload` handler
(`src/unnamed/part_001`)

    let existingID = sessionStorage.getItem('mijn_sessie_id');
    if (!existingID) {
        existingID = crypto.randomUUID();
        sessionStorage.setItem('mijn_sessie_id', existingID);
    }
    export const sessionID = existingID;

and on `beforeunload`:

    const id = sessionStorage.getItem('mijn_sessie_id');
    if (!id) return;
    const payload = { type: 'disconnect', sessionID: id };

`sessionStorage` holds at most the one relevant key, modelled as an
`Option String`; `crypto.randomUUID()` is an environment-supplied fresh
string. -/

/-- Module initialisation: reuse a stored identifier when one exists (and
is truthy), otherwise store the freshly generated one.  Returns the value
of the `sessionID` constant and the storage contents afterwards. -/
def initSession (stored : Option String) (fresh : String) :
    String × Option String :=
  match stored with
  | some i => if i != "" then (i, some i) else (fresh, some fresh)
  | none => (fresh, some fresh)

/-- The disconnect notice `{ type: 'disconnect', sessionID }`. -/
structure DiscMsg where
  type : String
  sessionID : String
deriving DecidableEq

/-- The `beforeunload` handler's disconnect notice, built from the stored
identifier; the handler returns without sending when the stored value is
absent or falsy. -/
def beforeunloadMsg (stored : Option String) : Option DiscMsg :=
  match stored with
  | some i => if i != "" then some { type := "disconnect", sessionID := i }
              else none
  | none => none

/-! ### Interval-timer table (`startHeartbeat` / `stopHeartbeat`)

    function startHeartbeat() {
        stopHeartbeat(); // Clear any existing interval
        sendHeartbeat();
        heartbeatInterval = setInterval(() => { sendHeartbeat(); },
                                        HEARTBEAT_INTERVAL);
    }
    function stopHeartbeat() {
        if (heartbeatInterval) { clearInterval(heartbeatInterval);
                                 heartbeatInterval = null; }
    }

To reason about how many live interval timers exist, the host's timer
table is modelled explicitly: `setInterval` registers a fresh timer id,
`clearInterval` removes one, and `heartbeatInterval` is the variable
holding the last handle. -/

/-- Host timer table plus the module's `heartbeatInterval` variable.
`intervals` lists the live interval timers as `(id, period)` pairs;
`immediateSends` counts the synchronous `sendHeartbeat()` calls. -/
structure TimerState where
  intervals : List (Nat × Nat)
  hbVar : Option Nat
  nextId : Nat
  immediateSends : Nat
deriving DecidableEq

/-- `setInterval(cb, period)`: register a fresh interval timer, returning
its handle. -/
def setIntervalT (period : Nat) (s : TimerState) : Nat × TimerState :=
  (s.nextId,
   { s with intervals := s.intervals ++ [(s.nextId, period)],
            nextId := s.nextId + 1 })

/-- `clearInterval(id)`: remove the interval timer with the given handle. -/
def clearIntervalT (id : Nat) (s : TimerState) : TimerState :=
  { s with intervals := s.intervals.filter (fun p => p.1 != id) }

/-- `stopHeartbeat()` against the timer table. -/
def stopHeartbeatT (s : TimerState) : TimerState :=
  match s.hbVar with
  | some id => { clearIntervalT id s with hbVar := none }
  | none => s

/-- `startHeartbeat()` against the timer table: clear the existing
interval, send one heartbeat immediately, install a fresh interval. -/
def startHeartbeatT (s : TimerState) : TimerState :=
  let s1 := stopHeartbeatT s
  let s2 := { s1 with immediateSends := s1.immediateSends + 1 }
  let r := setIntervalT HEARTBEAT_INTERVAL s2
  { r.2 with hbVar := some r.1 }

/-- Well-formedness of the module's timer state: the live interval timers
are exactly the one held by `heartbeatInterval` (with the heartbeat
period), and the held handle is below the id counter. -/
def TimerInv (s : TimerState) : Prop :=
  (∀ id, s.hbVar = some id →
    s.intervals = [(id, HEARTBEAT_INTERVAL)] ∧ id < s.nextId) ∧
  (s.hbVar = none → s.intervals = [])

/-! ### Frame decode loop (`processQueue` in `src/video_my.js`)

    async function processQueue() {
        if (processing || frameQueue.length === 0) return;
        processing = true;
        const buffer = frameQueue.shift();
        try { ... await createImageBitmap(blob); ... }
        catch (err) { console.error("Video frame error:", err); }
        processing = false;
        if (frameQueue.length > 0) { setTimeout(processQueue, 0); }
    }

The `await` splits `processQueue` into a synchronous start (guard, shift,
launch decode) and a completion continuation (log success/failure, clear
`processing`, schedule the next round via `setTimeout`).  Decodes in
flight are tracked as a list so that single-concurrency is a provable
property of the `processing` guard rather than an artifact of the model;
the outcome of a decode is an environment oracle `ok`. -/

/-- State of the video module: the frame queue, the `processing` flag, the
decodes launched but not yet completed, whether a `setTimeout(processQueue)`
callback is pending, and the logs of started and completed decodes (the
`Bool` in `done` records success; `false` is the caught, logged failure). -/
structure VState (α : Type) where
  queue : List α
  processing : Bool
  inflight : List α
  pqPending : Bool
  started : List α
  done : List (α × Bool)
deriving DecidableEq

/-- The synchronous part of `processQueue`: return unless idle and
non-empty; otherwise shift the oldest frame and launch its decode. -/
def pqStart {α : Type} (s : VState α) : VState α :=
  match s.queue with
  | [] => s
  | f :: rest =>
    if s.processing then s
    else
      { s with queue := rest, processing := true,
               inflight := s.inflight ++ [f],
               started := s.started ++ [f] }

/-- Completion of the oldest in-flight decode: record its outcome (a
failure is caught and logged), clear `processing`, and schedule another
`processQueue` round when frames remain. -/
def completeStep {α : Type} (ok : α → Bool) (s : VState α) : VState α :=
  match s.inflight with
  | [] => s
  | f :: rest =>
    { s with inflight := rest, processing := false,
             done := s.done ++ [(f, ok f)],
             pqPending := s.pqPending || !s.queue.isEmpty }

/-- Events of the video module: a frame arrival (the listener pushes with
eviction and calls `processQueue` synchronously), a decode completion, and
the firing of a scheduled `processQueue` callback. -/
inductive VEv (α : Type) where
  | push : α → VEv α
  | complete : VEv α
  | pq : VEv α

/-- One event-loop step of the video module. -/
def stepV {α : Type} (ok : α → Bool) (s : VState α) : VEv α → VState α
  | .push f => pqStart { s with queue := pushFrame s.queue f }
  | .complete => completeStep ok s
  | .pq => if s.pqPending then pqStart { s with pqPending := false } else s

/-- Initial video-module state. -/
def initV {α : Type} : VState α :=
  { queue := [], processing := false, inflight := [], pqPending := false,
    started := [], done := [] }

/-- Run the decode loop to quiescence with no further frame arrivals:
complete the in-flight decode if any, else run a pending `processQueue`
callback, until neither remains (fuel-bounded). -/
def drainV {α : Type} (ok : α → Bool) : Nat → VState α → VState α
  | 0, s => s
  | fuel + 1, s =>
    match s.inflight with
    | _ :: _ => drainV ok fuel (completeStep ok s)
    | [] => if s.pqPending then drainV ok fuel (stepV ok s .pq) else s

/-! ### ConnectionManager `stop()` — modelled from the spec

Modelled from the spec: no source file exports a `stop()` operation — the
reconnect `setTimeout` handle created in `ws.onclose` of
`src/unnamed/part_001` is discarded, and only the spec's ConnectionManager
(§4.1, §5) defines `stop()` and the Idle/Connecting/Open/ReconnectScheduled
machine with timer cancellation.  The state machine below follows the
spec's words: stop() cancels the pending reconnect timer and the heartbeat
timer synchronously, closes the transport, enters Idle, and never
auto-reconnects afterwards. -/

/-- Modelled from the spec: the ConnectionManager's connection states
(§3 ConnectionState). -/
inductive CMPhase where
  | idle : CMPhase
  | connecting : CMPhase
  | opened : CMPhase
  | closing : CMPhase
  | reconnectScheduled : CMPhase
deriving DecidableEq

/-- Modelled from the spec: ConnectionManager state — phase, whether a
reconnect timer and a heartbeat timer are pending, and counters of
`Transport.connect()` calls and heartbeat sends. -/
structure CMState where
  phase : CMPhase
  reconnectTimer : Bool
  hbTimer : Bool
  connectCalls : Nat
  hbSends : Nat
deriving DecidableEq

/-- Modelled from the spec: `stop()` — cancel the pending reconnect timer
and the heartbeat timer synchronously, close the transport, enter Idle. -/
def cmStop (s : CMState) : CMState :=
  { s with phase := .idle, reconnectTimer := false, hbTimer := false }

/-- Modelled from the spec: the events the machine reacts to on its own
(timer firings and transport callbacks) — everything except an explicit
new `start(url)` from the caller. -/
inductive CMEv where
  | reconnectFire : CMEv
  | hbFire : CMEv
  | transportOpen : CMEv
  | transportClose : CMEv
deriving DecidableEq

/-- Modelled from the spec: automatic transitions.  A reconnect timer
firing moves ReconnectScheduled → Connecting and calls
`Transport.connect()`; a heartbeat timer firing sends while Open; a
transport open moves Connecting → Open and starts the heartbeat (immediate
send); a transport close/error moves Connecting/Open → ReconnectScheduled,
stopping the heartbeat and scheduling a reconnect.  Events whose guard
does not hold (no such timer, wrong phase) do nothing. -/
def cmAutoStep (s : CMState) : CMEv → CMState
  | .reconnectFire =>
    if s.reconnectTimer then
      { s with phase := .connecting, reconnectTimer := false,
               connectCalls := s.connectCalls + 1 }
    else s
  | .hbFire =>
    if s.hbTimer && decide (s.phase = .opened) then
      { s with hbSends := s.hbSends + 1 }
    else s
  | .transportOpen =>
    if s.phase = .connecting then
      { s with phase := .opened, hbTimer := true,
               hbSends := s.hbSends + 1 }
    else s
  | .transportClose =>
    if s.phase = .connecting || s.phase = .opened then
      { s with phase := .reconnectScheduled, hbTimer := false,
               reconnectTimer := true }
    else s

/-! ## Helper lemmas -/

theorem sendCommand_wsOpen {μ : Type} (s : WSState μ) (m : μ) :
    (sendCommand s m).wsOpen = s.wsOpen := by
  unfold sendCommand; split <;> rfl

theorem sendCommand_hbNext {μ : Type} (s : WSState μ) (m : μ) :
    (sendCommand s m).hbNext = s.hbNext := by
  unfold sendCommand; split <;> rfl

theorem sendCommand_sessionID {μ : Type} (s : WSState μ) (m : μ) :
    (sendCommand s m).sessionID = s.sessionID := by
  unfold sendCommand; split <;> rfl

theorem sendCommand_reconnectDelay {μ : Type} (s : WSState μ) (m : μ) :
    (sendCommand s m).reconnectDelay = s.reconnectDelay := by
  unfold sendCommand; split <;> rfl

theorem sendCommand_sent {μ : Type} (s : WSState μ) (m : μ) :
    (sendCommand s m).sent
      = s.sent ++ (if s.wsOpen then [m] else []) := by
  unfold sendCommand; split <;> simp_all

theorem tickFire_open (h : Nat) (s : WSState HBMsg) (ho : s.wsOpen = true) :
    tickFire h s
      = { s with hbNext := some (h + HEARTBEAT_INTERVAL),
                 sent := s.sent ++ [mkHeartbeat h s.sessionID] } := by
  simp [tickFire, sendHeartbeat, ho, sendCommand]

theorem onopen_eq (a : Nat) (s : WSState HBMsg) :
    onopen a s
      = { s with wsOpen := true, reconnectDelay := 1000,
                 hbNext := some (a + HEARTBEAT_INTERVAL),
                 sent := s.sent ++ [mkHeartbeat a s.sessionID] } := by
  simp [onopen, startHeartbeat, stopHeartbeat, sendHeartbeat, sendCommand]

theorem onclose_eq (s : WSState HBMsg) :
    onclose s = { s with wsOpen := false, hbNext := none } := rfl

/-! ### Frame-queue lemmas -/

theorem foldl_pushFrame {α : Type} (fs : List α) :
    fs.foldl pushFrame ([] : List α) = fs.drop (fs.length - MAX_QUEUE) := by
  induction fs using List.reverseRecOn with
  | nil => rfl
  | append_singleton l a ih =>
    rw [List.foldl_append, List.foldl_cons, List.foldl_nil, ih]
    simp only [show MAX_QUEUE = 3 from rfl] at *
    by_cases hcap : 3 ≤ l.length
    · have hlen : (l.drop (l.length - 3)).length = 3 := by
        simp [List.length_drop]; omega
      have hpush : pushFrame (l.drop (l.length - 3)) a
          = (l.drop (l.length - 3)).tail ++ [a] := by
        simp [pushFrame, MAX_QUEUE, hlen]
      rw [hpush, List.tail_drop,
        show l.length - 3 + 1 = (l ++ [a]).length - 3 by
          simp only [List.length_append, List.length_cons, List.length_nil]
          omega,
        ← List.drop_append_of_le_length (by
          simp only [List.length_append, List.length_cons, List.length_nil]
          omega)]
    · have hdrop : l.length - 3 = 0 := by omega
      have hpush : pushFrame (l.drop (l.length - 3)) a
          = l.drop (l.length - 3) ++ [a] := by
        simp only [pushFrame, MAX_QUEUE]
        rw [if_neg (by simp [List.length_drop]; omega)]
      rw [hpush, hdrop, List.drop_zero,
        show (l ++ [a]).length - 3 = 0 by
          simp only [List.length_append, List.length_cons, List.length_nil]
          omega,
        List.drop_zero]

/-! ### Backoff lemmas -/

theorem stepDelay_iterate (j : Nat) :
    stepDelay^[j] 1000 = min ((1000 : ℚ) * (3 / 2) ^ j) MAX_RECONNECT := by
  induction j with
  | zero =>
    rw [Function.iterate_zero_apply, pow_zero, mul_one,
      min_eq_left (by norm_num [MAX_RECONNECT])]
  | succ j ih =>
    rw [Function.iterate_succ_apply', ih, stepDelay,
      min_mul_of_nonneg _ _ (by norm_num : (0 : ℚ) ≤ 3 / 2), min_assoc,
      min_eq_right
        (le_mul_of_one_le_right (by norm_num [MAX_RECONNECT]) (by norm_num)),
      pow_succ, mul_assoc]

/-! ## Claim theorems -/

/-- Claim C2 (confirmed): for every sequence of pushes of binary frames
starting from the empty queue, the frame queue's length never exceeds the
capacity `MAX_QUEUE = 3`; when a push arrives at capacity the oldest
element is evicted before appending, so after pushing `n` frames with no
intervening dequeues the queue holds exactly the most recently pushed
`min n 3` frames in arrival order (the suffix `fs.drop (fs.length - 3)`
of the pushed sequence). -/
theorem frameQueue_capacity_fifo :
    ∀ (α : Type) (fs : List α),
      (fs.foldl pushFrame ([] : List α)).length ≤ MAX_QUEUE ∧
      fs.foldl pushFrame ([] : List α) = fs.drop (fs.length - MAX_QUEUE) ∧
      (fs.foldl pushFrame ([] : List α)).length = min fs.length MAX_QUEUE := by
  intro α fs
  refine ⟨?_, foldl_pushFrame fs, ?_⟩ <;>
    rw [foldl_pushFrame] <;>
    simp only [List.length_drop, MAX_QUEUE] <;> omega

/-- Claim C1, counterexample: after `k = 1` consecutive failed attempts the
wait actually scheduled before attempt 2 is the base 1000 ms (the
multiplicative update only runs inside the timer callback, after the wait),
whereas the claim's formula `min(1000 * 1.5^k, 30000)` demands 1500 ms. -/
theorem backoff_claim_counterexample :
    scheduledDelay 1 = 1000 ∧
    min ((1000 : ℚ) * (3 / 2) ^ 1) MAX_RECONNECT = 1500 ∧
    (1000 : ℚ) ≠ 1500 := by
  refine ⟨rfl, ?_, by norm_num⟩
  rw [min_eq_left (by norm_num [MAX_RECONNECT])]
  norm_num

/-- Claim C1 (amended): after `k ≥ 1` consecutive failed connection
attempts with no intervening successful open, the delay scheduled before
attempt `k + 1` equals `min(1000 * 1.5^(k-1), 30000)` milliseconds (base
1000 ms, ceiling 30000 ms) — the exponent is `k - 1`, not `k`, because the
`setTimeout` wait uses the delay value current at close time and the
multiplicative update fires only inside the timer callback.  Any successful
open resets the current delay to the base value 1000 ms, so the delay after
the next failure restarts from the base. -/
theorem backoff_delay_formula :
    (∀ k : Nat, 1 ≤ k →
      scheduledDelay k = min ((1000 : ℚ) * (3 / 2) ^ (k - 1)) MAX_RECONNECT) ∧
    (∀ (s : WSState HBMsg) (t : Nat), (onopen t s).reconnectDelay = 1000) ∧
    scheduledDelay 1 = 1000 := by
  refine ⟨fun k _ => stepDelay_iterate (k - 1), fun s t => ?_, rfl⟩
  rw [onopen_eq]

/-- Witness for `backoff_delay_formula` at `k = 3`: the wait before the
fourth attempt is `min(1000 * 1.5^2, 30000) = 2250` ms. -/
theorem backoff_delay_formula_witness :
    scheduledDelay 3 = min ((1000 : ℚ) * (3 / 2) ^ (3 - 1)) MAX_RECONNECT :=
  backoff_delay_formula.1 3 (by norm_num)

/-- Claim C6 (confirmed): a message passed to `sendCommand` is transmitted
on the transport exactly when the connection is open; when it is not open
the state is left entirely unchanged — the message is discarded, never
queued for later delivery — and `sendCommand` is a total function into the
state, with no error outcome distinct from a successful send. -/
theorem send_only_when_open :
    (∀ (μ : Type) (s : WSState μ) (m : μ), s.wsOpen = true →
      sendCommand s m = { s with sent := s.sent ++ [m] }) ∧
    (∀ (μ : Type) (s : WSState μ) (m : μ), s.wsOpen = false →
      sendCommand s m = s) := by
  constructor <;> intro μ s m h <;> simp [sendCommand, h]

/-- Witness for `send_only_when_open`: a heartbeat message sent in the
closed initial state is dropped with the state unchanged, and sent in the
same state reopened it is appended to the transmit log. -/
theorem send_only_when_open_witness :
    sendCommand (initWS "s") (mkHeartbeat 0 "s") = initWS "s" ∧
    sendCommand { (initWS "s") with wsOpen := true } (mkHeartbeat 0 "s")
      = { (initWS "s") with
          wsOpen := true,
          sent := (initWS "s").sent ++ [mkHeartbeat 0 "s"] } :=
  ⟨send_only_when_open.2 HBMsg (initWS "s") (mkHeartbeat 0 "s") rfl,
   send_only_when_open.1 HBMsg { (initWS "s") with wsOpen := true }
     (mkHeartbeat 0 "s") rfl⟩

/-! ### Registry lemmas -/

theorem find?_append_none {α : Type} (p : α → Bool) (l₁ l₂ : List α)
    (h : l₁.find? p = none) : (l₁ ++ l₂).find? p = l₂.find? p := by
  induction l₁ with
  | nil => simp
  | cons a l ih =>
    cases hp : p a with
    | true => simp [List.find?, hp] at h
    | false =>
      simp only [List.find?, hp] at h
      simp only [List.cons_append, List.find?, hp]
      exact ih h

theorem broadcast_fold_ids {σ δ : Type} (d : δ) :
    ∀ (cbs : List (Cb σ δ)) (w : σ) (acc : List (Nat × Option String)),
      ((cbs.foldl (broadcastStep d) (w, acc)).2).map Prod.fst
        = acc.map Prod.fst ++ cbs.map Cb.id := by
  intro cbs
  induction cbs with
  | nil => intro w acc; simp
  | cons cb rest ih =>
    intro w acc
    rw [List.foldl_cons]
    show ((rest.foldl (broadcastStep d)
      ((cb.run d w).1, acc ++ [(cb.id, (cb.run d w).2)])).2).map Prod.fst = _
    rw [ih]
    simp

theorem lookupL_map_update {σ δ : Type} (ev : String) (cb : Cb σ δ) :
    ∀ (reg : Registry σ δ) (cbs : List (Cb σ δ)),
      lookupL reg ev = some cbs →
      lookupL
        (reg.map (fun p => if p.1 == ev then (p.1, p.2 ++ [cb]) else p)) ev
        = some (cbs ++ [cb]) := by
  intro reg
  induction reg with
  | nil => intro cbs h; simp [lookupL] at h
  | cons q rest ih =>
    intro cbs h
    cases hq : (q.1 == ev) with
    | true =>
      unfold lookupL at h
      simp only [List.find?, hq, Option.map_some] at h
      unfold lookupL
      rw [List.map_cons, if_pos hq]
      simp only [List.find?, hq, Option.map_some]
      simp at h
      simp [h]
    | false =>
      unfold lookupL at h
      simp only [List.find?, hq] at h
      unfold lookupL
      rw [List.map_cons, if_neg (by simp [hq])]
      simp only [List.find?, hq]
      exact ih cbs h

theorem lookupL_add {σ δ : Type} (reg : Registry σ δ) (ev : String)
    (cb : Cb σ δ) :
    lookupL (addEventListener reg ev cb) ev
      = some (((lookupL reg ev).getD []) ++ [cb]) := by
  unfold addEventListener
  cases h : lookupL reg ev with
  | none =>
    unfold lookupL at h ⊢
    cases hf : reg.find? (fun p => p.1 == ev) with
    | none =>
      rw [find?_append_none _ _ _ hf]
      simp [List.find?]
    | some pr => rw [hf] at h; simp at h
  | some cbs =>
    simp only [Option.getD]
    exact lookupL_map_update ev cb reg cbs h

/-! ### Classifier claim (C3) -/

/-- Claim C3, counterexample: the object `{"type": ""}` has a top-level
`type` field, so the claim's rule (2) demands topic `""`; the code's guard
`obj && obj.type` tests truthiness, the empty string is falsy, and the
classifier falls through to the literal topic `"json"`. -/
theorem classifier_claim_counterexample :
    classify (JVal.jobj [("type", JVal.jstr "")])
        = (JVal.jstr "json", JVal.jobj [("type", JVal.jstr "")]) ∧
    JVal.jstr "json" ≠ JVal.jstr "" := by
  refine ⟨rfl, fun h => ?_⟩
  injection h with h'
  exact absurd h' (by decide)

/-- Claim C3 (amended): for every parsed inbound JSON object the broadcast
topic is chosen by the first matching rule, in this fixed precedence order,
where rules (1)–(3) apply only when the respective field's value is truthy
(non-null, non-zero, non-empty) and rule (4) whenever the field is present:
(1) a nested `payload` object with a truthy `type` field yields that nested
type with the nested payload as data; (2) a truthy top-level `type` field
yields that value with the whole object as data; (3) a truthy top-level
`topic` field yields that value; (4) a present `connection_count` field
yields the literal topic `"connection_count"`; (5) otherwise the topic is
the literal `"json"`.  A raw text frame that is not valid JSON gets topic
`"text"` with the raw string as data.  An object matching several rules
always resolves to the highest-precedence rule. -/
theorem classifier_precedence :
    (∀ (fields : List (String × JVal)) (p ty : JVal),
      jsGet (JVal.jobj fields) "payload" = some p → truthy p = true →
      isObjType p = true → jsGet p "type" = some ty → truthy ty = true →
      classify (JVal.jobj fields) = (ty, p)) ∧
    (∀ (fields : List (String × JVal)) (ty : JVal),
      payloadRule (JVal.jobj fields) = none →
      jsGet (JVal.jobj fields) "type" = some ty → truthy ty = true →
      classify (JVal.jobj fields) = (ty, JVal.jobj fields)) ∧
    (∀ (fields : List (String × JVal)) (tp : JVal),
      payloadRule (JVal.jobj fields) = none →
      fieldRule (JVal.jobj fields) "type" = none →
      jsGet (JVal.jobj fields) "topic" = some tp → truthy tp = true →
      classify (JVal.jobj fields) = (tp, JVal.jobj fields)) ∧
    (∀ (fields : List (String × JVal)) (v : JVal),
      payloadRule (JVal.jobj fields) = none →
      fieldRule (JVal.jobj fields) "type" = none →
      fieldRule (JVal.jobj fields) "topic" = none →
      jsGet (JVal.jobj fields) "connection_count" = some v →
      classify (JVal.jobj fields)
        = (JVal.jstr "connection_count", JVal.jobj fields)) ∧
    (∀ (fields : List (String × JVal)),
      payloadRule (JVal.jobj fields) = none →
      fieldRule (JVal.jobj fields) "type" = none →
      fieldRule (JVal.jobj fields) "topic" = none →
      jsGet (JVal.jobj fields) "connection_count" = none →
      classify (JVal.jobj fields) = (JVal.jstr "json", JVal.jobj fields)) ∧
    (∀ raw : String, routeText none raw
      = (JVal.jstr "text", JVal.jstr raw)) := by
  refine ⟨?_, ?_, ?_, ?_, ?_, fun raw => rfl⟩
  · intro fields p ty h1 h2 h3 h4 h5
    have hpr : payloadRule (JVal.jobj fields) = some (ty, p) := by
      simp [payloadRule, h1, h2, h3, h4, h5]
    simp [classify, hpr, truthy]
  · intro fields ty hpr h1 h2
    have hf : fieldRule (JVal.jobj fields) "type" = some ty := by
      simp [fieldRule, h1, h2]
    simp [classify, hpr, hf, truthy]
  · intro fields tp hpr hf1 h1 h2
    have hf : fieldRule (JVal.jobj fields) "topic" = some tp := by
      simp [fieldRule, h1, h2]
    simp [classify, hpr, hf1, hf, truthy]
  · intro fields v hpr hf1 hf2 h1
    simp [classify, hpr, hf1, hf2, h1, truthy]
  · intro fields hpr hf1 hf2 h1
    simp [classify, hpr, hf1, hf2, h1, truthy]

/-- Witness for `classifier_precedence`: the spec's end-to-end scenario B —
`{"payload":{"type":"cameraStandStatus","online":true}}` resolves, by
rule (1), to topic `"cameraStandStatus"` with the nested payload as data. -/
theorem classifier_precedence_witness :
    classify (JVal.jobj [("payload",
        JVal.jobj [("type", JVal.jstr "cameraStandStatus"),
                   ("online", JVal.jbool true)])])
      = (JVal.jstr "cameraStandStatus",
         JVal.jobj [("type", JVal.jstr "cameraStandStatus"),
                    ("online", JVal.jbool true)]) :=
  classifier_precedence.1 _ _ _ rfl rfl rfl rfl rfl

/-! ### Broadcast claim (C4) -/

/-- Claim C4 (confirmed): a single broadcast invokes every callback
registered for the topic, in registration order, with the derived data —
the invocation log lists exactly the registered callbacks in order, and a
callback that throws has its error caught and logged without preventing
the invocation of the remaining callbacks (the log entry order is
independent of which callbacks error); a broadcast on a topic with no
registered listeners returns the world unchanged with an empty log (a
no-op, not an error); and `addEventListener` appends to the topic's
callback list, so registration order determines invocation order.
`broadcast` never mutates the registry, so no failure affects a future
broadcast. -/
theorem broadcast_isolates_listeners :
    (∀ (σ δ : Type) (reg : Registry σ δ) (ev : String) (d : δ) (w : σ),
      ((broadcast reg ev d w).2).map Prod.fst
        = ((lookupL reg ev).getD []).map Cb.id) ∧
    (∀ (σ δ : Type) (reg : Registry σ δ) (ev : String) (d : δ) (w : σ),
      lookupL reg ev = none → broadcast reg ev d w = (w, [])) ∧
    (∀ (σ δ : Type) (reg : Registry σ δ) (ev : String) (cb : Cb σ δ),
      lookupL (addEventListener reg ev cb) ev
        = some (((lookupL reg ev).getD []) ++ [cb])) := by
  refine ⟨?_, ?_, ?_⟩
  · intro σ δ reg ev d w
    unfold broadcast
    cases h : lookupL reg ev with
    | none => simp
    | some cbs => simp [broadcast_fold_ids]
  · intro σ δ reg ev d w h
    simp [broadcast, h]
  · intro σ δ reg ev cb
    exact lookupL_add reg ev cb

/-- Witness for `broadcast_isolates_listeners`: broadcasting on a topic
absent from a concrete registry (which does hold a throwing callback under
another topic) is a no-op. -/
theorem broadcast_isolates_listeners_witness :
    broadcast ([("t", [⟨1, fun d w => (w + d, some "boom")⟩])] :
        Registry Nat Nat) "u" 7 0 = (0, []) :=
  broadcast_isolates_listeners.2.1 Nat Nat
    [("t", [⟨1, fun d w => (w + d, some "boom")⟩])] "u" 7 0 rfl

/-! ### Timer-table claim (C10) -/

/-- Claim C10 (confirmed): `startHeartbeat` first clears any existing
heartbeat interval (`stopHeartbeat()` as its first action) before
installing a new one, so from any well-formed state at most one heartbeat
interval timer exists — after `startHeartbeat` exactly one — and repeated
starts without an intervening stop never duplicate the heartbeat cadence:
two starts in a row leave the same single-interval timer table (same
period list) as one start. -/
theorem startHeartbeat_idempotent_timers :
    ∀ (s : TimerState), TimerInv s →
      TimerInv (startHeartbeatT s) ∧
      (startHeartbeatT s).intervals.length = 1 ∧
      (startHeartbeatT (startHeartbeatT s)).intervals.map Prod.snd
        = (startHeartbeatT s).intervals.map Prod.snd := by
  have key : ∀ (t : TimerState), TimerInv t →
      startHeartbeatT t
        = { intervals := [((stopHeartbeatT t).nextId, HEARTBEAT_INTERVAL)],
            hbVar := some (stopHeartbeatT t).nextId,
            nextId := (stopHeartbeatT t).nextId + 1,
            immediateSends := (stopHeartbeatT t).immediateSends + 1 } := by
    intro t hinv
    have hstop : (stopHeartbeatT t).intervals = [] := by
      cases hvar : t.hbVar with
      | none => simp [stopHeartbeatT, hvar, hinv.2 hvar]
      | some id =>
        simp [stopHeartbeatT, hvar, clearIntervalT, (hinv.1 id hvar).1]
    simp [startHeartbeatT, setIntervalT, hstop]
  intro s hinv
  have hinv' : TimerInv (startHeartbeatT s) := by
    rw [key s hinv]
    constructor
    · intro id hid
      injection hid with hid
      subst hid
      exact ⟨rfl, Nat.lt_succ_self _⟩
    · intro hc
      cases hc
  refine ⟨hinv', by rw [key s hinv]; rfl, ?_⟩
  rw [key _ hinv', key s hinv]
  rfl

/-- Witness for `startHeartbeat_idempotent_timers` at the initial timer
state: after one start exactly one interval timer is live. -/
theorem startHeartbeat_idempotent_timers_witness :
    (startHeartbeatT
      { intervals := [], hbVar := none, nextId := 0,
        immediateSends := 0 }).intervals.length = 1 :=
  (startHeartbeat_idempotent_timers
    { intervals := [], hbVar := none, nextId := 0, immediateSends := 0 }
    (by exact ⟨(fun id hid => nomatch hid), fun _ => rfl⟩)).2.1

/-! ### ConnectionManager stop claim (C8) -/

/-- Claim C8 (confirmed against the spec-modelled ConnectionManager; the
repository's own files never retain the reconnect `setTimeout` handle and
export no `stop()`): after `stop()` returns, both the pending reconnect
timer and the heartbeat timer are cancelled — synchronously, in `stop()`
itself — and under any subsequent sequence of automatic events (timer
firings, transport callbacks) the machine stays in Idle, performs no
`Transport.connect()` call and sends no heartbeat. -/
theorem stop_prevents_reconnect_and_heartbeat :
    ∀ (s : CMState) (evs : List CMEv),
      (cmStop s).reconnectTimer = false ∧ (cmStop s).hbTimer = false ∧
      (evs.foldl cmAutoStep (cmStop s)).phase = CMPhase.idle ∧
      (evs.foldl cmAutoStep (cmStop s)).connectCalls = s.connectCalls ∧
      (evs.foldl cmAutoStep (cmStop s)).hbSends = s.hbSends := by
  intro s evs
  refine ⟨rfl, rfl, ?_⟩
  suffices h : ∀ (t : CMState), t.phase = CMPhase.idle →
      t.reconnectTimer = false → t.hbTimer = false →
      (evs.foldl cmAutoStep t).phase = CMPhase.idle ∧
      (evs.foldl cmAutoStep t).connectCalls = t.connectCalls ∧
      (evs.foldl cmAutoStep t).hbSends = t.hbSends by
    obtain ⟨h1, h2, h3⟩ := h (cmStop s) rfl rfl rfl
    exact ⟨h1, h2, h3⟩
  induction evs with
  | nil => intro t h1 _ _; exact ⟨h1, rfl, rfl⟩
  | cons e rest ih =>
    intro t h1 h2 h3
    rw [List.foldl_cons]
    have hstep : cmAutoStep t e = t := by
      cases e <;> simp [cmAutoStep, h1, h2, h3]
    rw [hstep]
    exact ih t h1 h2 h3

/-! ### Decode-loop lemmas (C7) -/

/-- Well-formedness of the video state: the `processing` flag is set
exactly while a decode is in flight, and at most one decode is in
flight. -/
def VInv {α : Type} (s : VState α) : Prop :=
  (s.processing = true ↔ s.inflight ≠ []) ∧ s.inflight.length ≤ 1

theorem VInv_init {α : Type} : VInv (initV : VState α) := by
  constructor
  · constructor
    · intro h; cases h
    · intro h; exact absurd rfl h
  · exact Nat.zero_le 1

theorem VInv_pqStart {α : Type} (s : VState α) (h : VInv s) :
    VInv (pqStart s) := by
  unfold pqStart
  cases hq : s.queue with
  | nil => exact h
  | cons f rest =>
    cases hp : s.processing with
    | true => simp only [hp, if_pos rfl]; exact h
    | false =>
      have hnil : s.inflight = [] := by
        by_contra hne
        have := h.1.mpr hne
        rw [hp] at this
        cases this
      simp only [hp]
      rw [if_neg (by simp)]
      constructor
      · simp [hnil]
      · simp [hnil]

theorem VInv_complete {α : Type} (ok : α → Bool) (s : VState α)
    (h : VInv s) : VInv (completeStep ok s) := by
  unfold completeStep
  cases hi : s.inflight with
  | nil => exact h
  | cons f rest =>
    have hrest : rest = [] := by
      have := h.2
      rw [hi] at this
      simp at this
      exact this
    subst hrest
    constructor
    · simp
    · simp

theorem VInv_step {α : Type} (ok : α → Bool) (s : VState α)
    (ev : VEv α) (h : VInv s) : VInv (stepV ok s ev) := by
  cases ev with
  | push f =>
    exact VInv_pqStart _ ⟨h.1, h.2⟩
  | complete => exact VInv_complete ok s h
  | pq =>
    show VInv (if s.pqPending then pqStart { s with pqPending := false }
      else s)
    split
    · exact VInv_pqStart _ ⟨h.1, h.2⟩
    · exact h

theorem VInv_foldl {α : Type} (ok : α → Bool) (evs : List (VEv α)) :
    ∀ (s : VState α), VInv s → VInv (evs.foldl (stepV ok) s) := by
  induction evs with
  | nil => intro s h; exact h
  | cons e rest ih =>
    intro s h
    rw [List.foldl_cons]
    exact ih _ (VInv_step ok s e h)

theorem drainV_succ_busy {α : Type} (ok : α → Bool) (fuel : Nat)
    (s : VState α) (f : α) (l : List α) (h : s.inflight = f :: l) :
    drainV ok (fuel + 1) s = drainV ok fuel (completeStep ok s) := by
  simp only [drainV, h]

theorem drainV_succ_idle {α : Type} (ok : α → Bool) (fuel : Nat)
    (s : VState α) (h1 : s.inflight = []) (h2 : s.pqPending = true) :
    drainV ok (fuel + 1) s = drainV ok fuel (stepV ok s VEv.pq) := by
  simp only [drainV, h1, h2, if_pos]

theorem drainV_succ_stop {α : Type} (ok : α → Bool) (fuel : Nat)
    (s : VState α) (h1 : s.inflight = []) (h2 : s.pqPending = false) :
    drainV ok (fuel + 1) s = s := by
  simp only [drainV, h1, h2]
  rw [if_neg (by simp)]

theorem drainV_run {α : Type} (ok : α → Bool) :
    ∀ (q : List α) (st0 : List α) (d0 : List (α × Bool)),
      drainV ok (2 * q.length + 1)
        { queue := q, processing := false, inflight := [],
          pqPending := true, started := st0, done := d0 }
        = { queue := [], processing := false, inflight := [],
            pqPending := false, started := st0 ++ q,
            done := d0 ++ q.map (fun f => (f, ok f)) } := by
  intro q
  induction q with
  | nil =>
    intro st0 d0
    rw [show 2 * ([] : List α).length + 1 = 0 + 1 from rfl,
      drainV_succ_idle ok 0 _ rfl rfl]
    simp [drainV, stepV, pqStart]
  | cons f rest ih =>
    intro st0 d0
    rw [show 2 * (f :: rest).length + 1 = (2 * rest.length + 2) + 1 by
      simp [List.length_cons]; ring]
    rw [drainV_succ_idle ok _ _ rfl rfl]
    have hS1 : stepV ok
        { queue := f :: rest, processing := false, inflight := [],
          pqPending := true, started := st0, done := d0 } VEv.pq
        = { queue := rest, processing := true, inflight := [f],
            pqPending := false, started := st0 ++ [f], done := d0 } := by
      simp [stepV, pqStart]
    rw [hS1,
      show 2 * rest.length + 2 = (2 * rest.length + 1) + 1 from rfl,
      drainV_succ_busy ok _ _ f [] rfl]
    have hS2 : completeStep ok
        { queue := rest, processing := true, inflight := [f],
          pqPending := false, started := st0 ++ [f], done := d0 }
        = { queue := rest, processing := false, inflight := [],
            pqPending := !rest.isEmpty, started := st0 ++ [f],
            done := d0 ++ [(f, ok f)] } := by
      simp [completeStep]
    rw [hS2]
    cases rest with
    | nil =>
      rw [show 2 * ([] : List α).length + 1 = 0 + 1 from rfl,
        drainV_succ_stop ok 0 _ rfl rfl]
      simp
    | cons g rest2 =>
      rw [show (!(g :: rest2).isEmpty) = true by simp]
      rw [ih (st0 ++ [f]) (d0 ++ [(f, ok f)])]
      simp

/-- Claim C7 (confirmed): the decode loop has at most one decode/render
operation in flight under any interleaving of frame arrivals, completions
and scheduled `processQueue` callbacks (the `processing` guard); running
the loop to quiescence on a retained queue decodes exactly the retained
frames in FIFO order, recording each frame's success or (caught, logged)
failure and continuing past failures — the completion log is the full
`map` of the queue regardless of the outcome oracle; and a completion
itself never starts the next decode synchronously — it only schedules a
`processQueue` callback, so control yields to the scheduler between
frames. -/
theorem decode_loop_single_flight_fifo :
    (∀ (α : Type) (ok : α → Bool) (evs : List (VEv α)),
      (evs.foldl (stepV ok) initV).inflight.length ≤ 1) ∧
    (∀ (α : Type) (ok : α → Bool) (q st0 : List α) (d0 : List (α × Bool)),
      drainV ok (2 * q.length + 1)
        { queue := q, processing := false, inflight := [],
          pqPending := true, started := st0, done := d0 }
        = { queue := [], processing := false, inflight := [],
            pqPending := false, started := st0 ++ q,
            done := d0 ++ q.map (fun f => (f, ok f)) }) ∧
    (∀ (α : Type) (ok : α → Bool) (s : VState α),
      (completeStep ok s).started = s.started) := by
  refine ⟨?_, ?_, ?_⟩
  · intro α ok evs
    exact (VInv_foldl ok evs initV VInv_init).2
  · intro α ok q st0 d0
    exact drainV_run ok q st0 d0
  · intro α ok s
    unfold completeStep
    cases s.inflight <;> rfl

/-! ### Heartbeat-run lemmas (C5, C9) -/

theorem sendHeartbeat_wsOpen (t : Nat) (s : WSState HBMsg) :
    (sendHeartbeat t s).wsOpen = s.wsOpen := by
  unfold sendHeartbeat
  split
  · exact sendCommand_wsOpen s _
  · rfl

theorem sendHeartbeat_sessionID (t : Nat) (s : WSState HBMsg) :
    (sendHeartbeat t s).sessionID = s.sessionID := by
  unfold sendHeartbeat
  split
  · exact sendCommand_sessionID s _
  · rfl

theorem sendHeartbeat_reconnectDelay (t : Nat) (s : WSState HBMsg) :
    (sendHeartbeat t s).reconnectDelay = s.reconnectDelay := by
  unfold sendHeartbeat
  split
  · exact sendCommand_reconnectDelay s _
  · rfl

theorem sendHeartbeat_sent_open (t : Nat) (s : WSState HBMsg)
    (ho : s.wsOpen = true) :
    (sendHeartbeat t s).sent
      = s.sent ++ [mkHeartbeat t s.sessionID] := by
  unfold sendHeartbeat
  rw [if_pos ho, sendCommand_sent, ho]
  simp

theorem tickFire_hbNext (h : Nat) (s : WSState HBMsg) :
    (tickFire h s).hbNext = some (h + HEARTBEAT_INTERVAL) := rfl

theorem tickFire_wsOpen (h : Nat) (s : WSState HBMsg) :
    (tickFire h s).wsOpen = s.wsOpen := sendHeartbeat_wsOpen h s

theorem tickFire_sessionID (h : Nat) (s : WSState HBMsg) :
    (tickFire h s).sessionID = s.sessionID := sendHeartbeat_sessionID h s

theorem tickFire_reconnectDelay (h : Nat) (s : WSState HBMsg) :
    (tickFire h s).reconnectDelay = s.reconnectDelay :=
  sendHeartbeat_reconnectDelay h s

theorem tickFire_sent_open (h : Nat) (s : WSState HBMsg)
    (ho : s.wsOpen = true) :
    (tickFire h s).sent = s.sent ++ [mkHeartbeat h s.sessionID] :=
  sendHeartbeat_sent_open h s ho

theorem fireTicksLe_none (fuel T : Nat) (s : WSState HBMsg)
    (h : s.hbNext = none) : fireTicksLe fuel s T = s := by
  cases fuel <;> simp [fireTicksLe, h]

theorem fireTicksLe_stop (fuel T hh : Nat) (s : WSState HBMsg)
    (hn : s.hbNext = some hh) (hT : T < hh) : fireTicksLe fuel s T = s := by
  cases fuel with
  | zero => rfl
  | succ n =>
    simp only [fireTicksLe, hn]
    rw [if_neg (by omega)]

theorem fireTicksLt_none (fuel t : Nat) (s : WSState HBMsg)
    (h : s.hbNext = none) : fireTicksLt fuel s t = s := by
  cases fuel <;> simp [fireTicksLt, h]

theorem fireTicksLt_eq_le (fuel : Nat) :
    ∀ (s : WSState HBMsg) (t : Nat), 1 ≤ t →
      fireTicksLt fuel s t = fireTicksLe fuel s (t - 1) := by
  induction fuel with
  | zero => intro s t _; rfl
  | succ fuel ih =>
    intro s t ht
    cases hn : s.hbNext with
    | none => simp [fireTicksLt, fireTicksLe, hn]
    | some h =>
      simp only [fireTicksLt, fireTicksLe, hn]
      by_cases hlt : h < t
      · rw [if_pos hlt, if_pos (by omega), ih _ _ ht]
      · rw [if_neg hlt, if_neg (by omega)]

theorem range_map_hb (sid : String) (a n : Nat) :
    (List.range (n + 1)).map
        (fun i => mkHeartbeat (a + HEARTBEAT_INTERVAL * i) sid)
      = mkHeartbeat a sid :: (List.range n).map
          (fun i => mkHeartbeat
            (a + HEARTBEAT_INTERVAL + HEARTBEAT_INTERVAL * i) sid) := by
  rw [List.range_succ_eq_map, List.map_cons, List.map_map]
  simp only [Nat.mul_zero, Nat.add_zero]
  congr 1
  apply List.map_congr_left
  intro i _
  simp only [Function.comp_apply]
  congr 1
  rw [Nat.succ_eq_add_one]
  ring

theorem fireTicksLe_char :
    ∀ (fuel : Nat) (s : WSState HBMsg) (h T : Nat),
      s.hbNext = some h → s.wsOpen = true → h ≤ T →
      (T - h) / HEARTBEAT_INTERVAL < fuel →
      (fireTicksLe fuel s T).hbNext
          = some (h + HEARTBEAT_INTERVAL
              * ((T - h) / HEARTBEAT_INTERVAL + 1)) ∧
      (fireTicksLe fuel s T).sent
          = s.sent ++ (List.range ((T - h) / HEARTBEAT_INTERVAL + 1)).map
              (fun i => mkHeartbeat (h + HEARTBEAT_INTERVAL * i)
                s.sessionID) ∧
      (fireTicksLe fuel s T).wsOpen = true ∧
      (fireTicksLe fuel s T).sessionID = s.sessionID ∧
      (fireTicksLe fuel s T).reconnectDelay = s.reconnectDelay := by
  intro fuel
  induction fuel with
  | zero => intro s h T _ _ _ hf; exact absurd hf (Nat.not_lt_zero _)
  | succ fuel ih =>
    intro s h T hn ho hhT hf
    have hunfold : fireTicksLe (fuel + 1) s T
        = fireTicksLe fuel (tickFire h s) T := by
      simp only [fireTicksLe, hn]
      rw [if_pos hhT]
    rw [hunfold]
    by_cases hc : h + HEARTBEAT_INTERVAL ≤ T
    · have hle : HEARTBEAT_INTERVAL ≤ T - h := by omega
      have hdiv : (T - h) / HEARTBEAT_INTERVAL
          = (T - (h + HEARTBEAT_INTERVAL)) / HEARTBEAT_INTERVAL + 1 := by
        rw [show T - (h + HEARTBEAT_INTERVAL)
          = (T - h) - HEARTBEAT_INTERVAL by omega]
        exact Nat.div_eq_sub_div (by norm_num [HEARTBEAT_INTERVAL]) hle
      have hf' : (T - (h + HEARTBEAT_INTERVAL)) / HEARTBEAT_INTERVAL
          < fuel := by omega
      obtain ⟨g1, g2, g3, g4, g5⟩ := ih (tickFire h s)
        (h + HEARTBEAT_INTERVAL) T (tickFire_hbNext h s)
        (by rw [tickFire_wsOpen]; exact ho) hc hf'
      refine ⟨?_, ?_, ?_, ?_, ?_⟩
      · rw [g1, hdiv]
        exact congrArg some (by ring)
      · rw [g2, tickFire_sent_open h s ho, tickFire_sessionID, hdiv,
          List.append_assoc]
        conv_rhs => rw [range_map_hb]
        rfl
      · exact g3
      · rw [g4, tickFire_sessionID]
      · rw [g5, tickFire_reconnectDelay]
    · have hstop : fireTicksLe fuel (tickFire h s) T = tickFire h s :=
        fireTicksLe_stop fuel T (h + HEARTBEAT_INTERVAL) _
          (tickFire_hbNext h s) (by omega)
      have hd0 : (T - h) / HEARTBEAT_INTERVAL = 0 :=
        Nat.div_eq_of_lt (by omega)
      rw [hstop]
      refine ⟨?_, ?_, ?_, ?_, ?_⟩
      · rw [tickFire_hbNext, hd0]
        exact congrArg some (by ring)
      · rw [tickFire_sent_open h s ho, hd0,
          show (0 : Nat) + 1 = 0 + 1 from rfl, range_map_hb]
        simp
      · rw [tickFire_wsOpen]; exact ho
      · exact tickFire_sessionID h s
      · exact tickFire_reconnectDelay h s

theorem onopen_hbNext (a : Nat) (s : WSState HBMsg) :
    (onopen a s).hbNext = some (a + HEARTBEAT_INTERVAL) := by rw [onopen_eq]

theorem onopen_wsOpen (a : Nat) (s : WSState HBMsg) :
    (onopen a s).wsOpen = true := by rw [onopen_eq]

theorem onopen_sent (a : Nat) (s : WSState HBMsg) :
    (onopen a s).sent = s.sent ++ [mkHeartbeat a s.sessionID] := by
  rw [onopen_eq]

theorem onopen_sessionID (a : Nat) (s : WSState HBMsg) :
    (onopen a s).sessionID = s.sessionID := by rw [onopen_eq]

theorem onclose_hbNext (s : WSState HBMsg) : (onclose s).hbNext = none := rfl

theorem onclose_wsOpen (s : WSState HBMsg) : (onclose s).wsOpen = false := rfl

theorem onclose_sent (s : WSState HBMsg) : (onclose s).sent = s.sent := rfl

theorem onclose_sessionID (s : WSState HBMsg) :
    (onclose s).sessionID = s.sessionID := rfl

/-- Firing the remaining ticks (bound `≤ T`) from a state just set up by a
successful open at time `a` (immediate heartbeat already sent, interval
installed at `a + HEARTBEAT_INTERVAL`): the transmit log ends with exactly
the heartbeats at `a, a + 10000, …` up to `T`, and the timer is one period
past the last one. -/
theorem fire_after_immediate (fuel a T : Nat) (s1 : WSState HBMsg)
    (base : List HBMsg) (sid : String)
    (hn : s1.hbNext = some (a + HEARTBEAT_INTERVAL))
    (ho : s1.wsOpen = true)
    (hsent : s1.sent = base ++ [mkHeartbeat a sid])
    (hsid : s1.sessionID = sid)
    (haT : a ≤ T) (hfuel : T < fuel) :
    (fireTicksLe fuel s1 T).sent
        = base ++ (List.range ((T - a) / HEARTBEAT_INTERVAL + 1)).map
            (fun i => mkHeartbeat (a + HEARTBEAT_INTERVAL * i) sid) ∧
    (fireTicksLe fuel s1 T).hbNext
        = some (a + HEARTBEAT_INTERVAL
            * ((T - a) / HEARTBEAT_INTERVAL + 1)) ∧
    (fireTicksLe fuel s1 T).wsOpen = true ∧
    (fireTicksLe fuel s1 T).sessionID = sid := by
  by_cases hc : a + HEARTBEAT_INTERVAL ≤ T
  · have hle : HEARTBEAT_INTERVAL ≤ T - a := by omega
    have hdiv : (T - a) / HEARTBEAT_INTERVAL
        = (T - (a + HEARTBEAT_INTERVAL)) / HEARTBEAT_INTERVAL + 1 := by
      rw [show T - (a + HEARTBEAT_INTERVAL)
        = (T - a) - HEARTBEAT_INTERVAL by omega]
      exact Nat.div_eq_sub_div (by norm_num [HEARTBEAT_INTERVAL]) hle
    obtain ⟨g1, g2, g3, g4, _⟩ := fireTicksLe_char fuel s1
      (a + HEARTBEAT_INTERVAL) T hn ho hc
      (by
        have := Nat.div_le_self
          (T - (a + HEARTBEAT_INTERVAL)) HEARTBEAT_INTERVAL
        omega)
    refine ⟨?_, ?_, g3, by rw [g4, hsid]⟩
    · rw [g2, hsent, hsid, hdiv, List.append_assoc]
      conv_rhs => rw [range_map_hb]
      rfl
    · rw [g1, hdiv]
      exact congrArg some (by ring)
  · have hstop := fireTicksLe_stop fuel T (a + HEARTBEAT_INTERVAL) s1 hn
      (by omega)
    have hd0 : (T - a) / HEARTBEAT_INTERVAL = 0 :=
      Nat.div_eq_of_lt (by omega)
    rw [hstop]
    refine ⟨?_, ?_, ho, hsid⟩
    · rw [hsent, hd0, range_map_hb]
      simp
    · rw [hn, hd0]
      exact congrArg some (by ring)

/-- Strict-bound version of `fire_after_immediate`: fire the ticks due
strictly before an external event at time `b`. -/
theorem fire_after_immediate_lt (fuel a b : Nat) (s1 : WSState HBMsg)
    (base : List HBMsg) (sid : String)
    (hn : s1.hbNext = some (a + HEARTBEAT_INTERVAL))
    (ho : s1.wsOpen = true)
    (hsent : s1.sent = base ++ [mkHeartbeat a sid])
    (hsid : s1.sessionID = sid)
    (hab : a < b) (hfuel : b ≤ fuel) :
    (fireTicksLt fuel s1 b).sent
        = base ++ (List.range ((b - 1 - a) / HEARTBEAT_INTERVAL + 1)).map
            (fun i => mkHeartbeat (a + HEARTBEAT_INTERVAL * i) sid) ∧
    (fireTicksLt fuel s1 b).hbNext
        = some (a + HEARTBEAT_INTERVAL
            * ((b - 1 - a) / HEARTBEAT_INTERVAL + 1)) ∧
    (fireTicksLt fuel s1 b).wsOpen = true ∧
    (fireTicksLt fuel s1 b).sessionID = sid := by
  rw [fireTicksLt_eq_le fuel s1 b (by omega)]
  exact fire_after_immediate fuel a (b - 1) s1 base sid hn ho hsent hsid
    (by omega) (by omega)

theorem runEvents_open (sid : String) (a T : Nat) (haT : a ≤ T) :
    (runEvents (initWS sid) [(a, WSEv.openEv)] T).sent
        = (List.range ((T - a) / HEARTBEAT_INTERVAL + 1)).map
            (fun i => mkHeartbeat (a + HEARTBEAT_INTERVAL * i) sid) ∧
    (runEvents (initWS sid) [(a, WSEv.openEv)] T).wsOpen = true ∧
    (runEvents (initWS sid) [(a, WSEv.openEv)] T).sessionID = sid := by
  have h0 : fireTicksLt (a + 1) (initWS sid) a = initWS sid :=
    fireTicksLt_none _ _ _ rfl
  have hrun : runEvents (initWS sid) [(a, WSEv.openEv)] T
      = fireTicksLe (T + 1) (onopen a (initWS sid)) T := by
    show fireTicksLe (T + 1)
      (applyEv WSEv.openEv a (fireTicksLt (a + 1) (initWS sid) a)) T = _
    rw [h0]
    rfl
  rw [hrun]
  obtain ⟨g1, _, g3, g4⟩ := fire_after_immediate (T + 1) a T
    (onopen a (initWS sid)) [] sid
    (onopen_hbNext a _) (onopen_wsOpen a _)
    (by rw [onopen_sent]; rfl) (onopen_sessionID a _)
    haT (by omega)
  exact ⟨g1, g3, g4⟩

theorem runEvents_open_close (sid : String) (a b T : Nat) (hab : a < b)
    (hbT : b ≤ T) :
    (runEvents (initWS sid) [(a, WSEv.openEv), (b, WSEv.closeEv)] T).sent
        = (List.range ((b - 1 - a) / HEARTBEAT_INTERVAL + 1)).map
            (fun i => mkHeartbeat (a + HEARTBEAT_INTERVAL * i) sid) ∧
    (runEvents (initWS sid) [(a, WSEv.openEv), (b, WSEv.closeEv)] T).hbNext
        = none ∧
    (runEvents (initWS sid) [(a, WSEv.openEv), (b, WSEv.closeEv)] T).wsOpen
        = false ∧
    (runEvents (initWS sid)
        [(a, WSEv.openEv), (b, WSEv.closeEv)] T).sessionID = sid := by
  have h0 : fireTicksLt (a + 1) (initWS sid) a = initWS sid :=
    fireTicksLt_none _ _ _ rfl
  obtain ⟨x1, _, _, x4⟩ := fire_after_immediate_lt (b + 1) a b
    (onopen a (initWS sid)) [] sid
    (onopen_hbNext a _) (onopen_wsOpen a _)
    (by rw [onopen_sent]; rfl) (onopen_sessionID a _)
    hab (by omega)
  have hrun : runEvents (initWS sid)
      [(a, WSEv.openEv), (b, WSEv.closeEv)] T
      = fireTicksLe (T + 1)
          (onclose (fireTicksLt (b + 1) (onopen a (initWS sid)) b)) T := by
    show fireTicksLe (T + 1)
      (applyEv WSEv.closeEv b
        (fireTicksLt (b + 1)
          (applyEv WSEv.openEv a (fireTicksLt (a + 1) (initWS sid) a)) b))
      T = _
    rw [h0]
    rfl
  have hfin : fireTicksLe (T + 1)
      (onclose (fireTicksLt (b + 1) (onopen a (initWS sid)) b)) T
      = onclose (fireTicksLt (b + 1) (onopen a (initWS sid)) b) :=
    fireTicksLe_none _ _ _ (onclose_hbNext _)
  rw [hrun, hfin]
  refine ⟨?_, onclose_hbNext _, onclose_wsOpen _, ?_⟩
  · rw [onclose_sent]
    simpa using x1
  · rw [onclose_sessionID]
    exact x4

theorem runEvents_open_close_open (sid : String) (a b c T : Nat)
    (hab : a < b) (hbc : b ≤ c) (hcT : c ≤ T) :
    (runEvents (initWS sid)
        [(a, WSEv.openEv), (b, WSEv.closeEv), (c, WSEv.openEv)] T).sent
        = (List.range ((b - 1 - a) / HEARTBEAT_INTERVAL + 1)).map
            (fun i => mkHeartbeat (a + HEARTBEAT_INTERVAL * i) sid)
          ++ (List.range ((T - c) / HEARTBEAT_INTERVAL + 1)).map
            (fun i => mkHeartbeat (c + HEARTBEAT_INTERVAL * i) sid) ∧
    (runEvents (initWS sid)
        [(a, WSEv.openEv), (b, WSEv.closeEv), (c, WSEv.openEv)] T).wsOpen
        = true ∧
    (runEvents (initWS sid)
        [(a, WSEv.openEv), (b, WSEv.closeEv), (c, WSEv.openEv)]
        T).sessionID = sid := by
  have h0 : fireTicksLt (a + 1) (initWS sid) a = initWS sid :=
    fireTicksLt_none _ _ _ rfl
  obtain ⟨x1, _, _, x4⟩ := fire_after_immediate_lt (b + 1) a b
    (onopen a (initWS sid)) [] sid
    (onopen_hbNext a _) (onopen_wsOpen a _)
    (by rw [onopen_sent]; rfl) (onopen_sessionID a _)
    hab (by omega)
  have hX : fireTicksLt (c + 1)
      (onclose (fireTicksLt (b + 1) (onopen a (initWS sid)) b)) c
      = onclose (fireTicksLt (b + 1) (onopen a (initWS sid)) b) :=
    fireTicksLt_none _ _ _ (onclose_hbNext _)
  have hrun : runEvents (initWS sid)
      [(a, WSEv.openEv), (b, WSEv.closeEv), (c, WSEv.openEv)] T
      = fireTicksLe (T + 1)
          (onopen c
            (onclose (fireTicksLt (b + 1) (onopen a (initWS sid)) b)))
          T := by
    show fireTicksLe (T + 1)
      (applyEv WSEv.openEv c
        (fireTicksLt (c + 1)
          (applyEv WSEv.closeEv b
            (fireTicksLt (b + 1)
              (applyEv WSEv.openEv a (fireTicksLt (a + 1) (initWS sid) a))
              b))
          c))
      T = _
    rw [h0]
    rw [show applyEv WSEv.openEv a (initWS sid) = onopen a (initWS sid)
      from rfl]
    rw [show applyEv WSEv.closeEv b
        (fireTicksLt (b + 1) (onopen a (initWS sid)) b)
      = onclose (fireTicksLt (b + 1) (onopen a (initWS sid)) b) from rfl]
    rw [hX]
    rfl
  rw [hrun]
  obtain ⟨g1, _, g3, g4⟩ := fire_after_immediate (T + 1) c T
    (onopen c (onclose (fireTicksLt (b + 1) (onopen a (initWS sid)) b)))
    ((fireTicksLt (b + 1) (onopen a (initWS sid)) b).sent) sid
    (onopen_hbNext c _) (onopen_wsOpen c _)
    (by rw [onopen_sent, onclose_sent, onclose_sessionID, x4])
    (by rw [onopen_sessionID, onclose_sessionID]; exact x4)
    hcT (by omega)
  refine ⟨?_, g3, g4⟩
  rw [g1, x1]
  simp

/-- Claim C5 (confirmed): on a transition into Open at time `a` exactly one
heartbeat is sent immediately (at `t = a`) and then exactly one every
10000 ms for as long as the connection remains Open: with the connection
still open at horizon `T` the transmit log is exactly the heartbeats at
`a + 10000·i` for `i ≤ (T-a)/10000`; closing at time `b` clears the
heartbeat timer and freezes the log at the heartbeats sent strictly before
`b`, so no heartbeat is ever sent while the connection is not Open; and a
later reopen at time `c` again sends immediately and resumes the cadence
from `c` — covering every transition into Open. -/
theorem heartbeat_schedule :
    (∀ (sid : String) (a T : Nat), a ≤ T →
      (runEvents (initWS sid) [(a, WSEv.openEv)] T).sent
        = (List.range ((T - a) / HEARTBEAT_INTERVAL + 1)).map
            (fun i => mkHeartbeat (a + HEARTBEAT_INTERVAL * i) sid)) ∧
    (∀ (sid : String) (a b T : Nat), a < b → b ≤ T →
      (runEvents (initWS sid) [(a, WSEv.openEv), (b, WSEv.closeEv)] T).sent
        = (List.range ((b - 1 - a) / HEARTBEAT_INTERVAL + 1)).map
            (fun i => mkHeartbeat (a + HEARTBEAT_INTERVAL * i) sid) ∧
      (runEvents (initWS sid)
        [(a, WSEv.openEv), (b, WSEv.closeEv)] T).hbNext = none) ∧
    (∀ (sid : String) (a b c T : Nat), a < b → b ≤ c → c ≤ T →
      (runEvents (initWS sid)
        [(a, WSEv.openEv), (b, WSEv.closeEv), (c, WSEv.openEv)] T).sent
        = (List.range ((b - 1 - a) / HEARTBEAT_INTERVAL + 1)).map
            (fun i => mkHeartbeat (a + HEARTBEAT_INTERVAL * i) sid)
          ++ (List.range ((T - c) / HEARTBEAT_INTERVAL + 1)).map
            (fun i => mkHeartbeat (c + HEARTBEAT_INTERVAL * i) sid)) := by
  refine ⟨?_, ?_, ?_⟩
  · intro sid a T h
    exact (runEvents_open sid a T h).1
  · intro sid a b T h1 h2
    exact ⟨(runEvents_open_close sid a b T h1 h2).1,
      (runEvents_open_close sid a b T h1 h2).2.1⟩
  · intro sid a b c T h1 h2 h3
    exact (runEvents_open_close_open sid a b c T h1 h2 h3).1

/-- Witness for `heartbeat_schedule`: the spec's end-to-end scenario C —
connect at `t = 0`, remain open for 10000 ms: exactly two heartbeats were
sent, at `t = 0` and `t = 10000`. -/
theorem heartbeat_schedule_witness :
    (runEvents (initWS "sid0") [(0, WSEv.openEv)] 10000).sent
      = [mkHeartbeat 0 "sid0", mkHeartbeat 10000 "sid0"] := by
  rw [heartbeat_schedule.1 "sid0" 0 10000 (by omega)]
  rfl

/-! ### Session-identifier lemmas (C9) -/

theorem fireTicksLe_sessionID (fuel : Nat) :
    ∀ (s : WSState HBMsg) (T : Nat),
      (fireTicksLe fuel s T).sessionID = s.sessionID := by
  induction fuel with
  | zero => intro s T; rfl
  | succ fuel ih =>
    intro s T
    cases hn : s.hbNext with
    | none => simp [fireTicksLe, hn]
    | some h =>
      simp only [fireTicksLe, hn]
      split
      · rw [ih, tickFire_sessionID]
      · rfl

theorem fireTicksLt_sessionID (fuel : Nat) :
    ∀ (s : WSState HBMsg) (t : Nat),
      (fireTicksLt fuel s t).sessionID = s.sessionID := by
  induction fuel with
  | zero => intro s t; rfl
  | succ fuel ih =>
    intro s t
    cases hn : s.hbNext with
    | none => simp [fireTicksLt, hn]
    | some h =>
      simp only [fireTicksLt, hn]
      split
      · rw [ih, tickFire_sessionID]
      · rfl

theorem applyEv_sessionID (e : WSEv) (t : Nat) (s : WSState HBMsg) :
    (applyEv e t s).sessionID = s.sessionID := by
  cases e
  · exact onopen_sessionID t s
  · exact onclose_sessionID s

theorem runEvents_sessionID :
    ∀ (evs : List (Nat × WSEv)) (s : WSState HBMsg) (T : Nat),
      (runEvents s evs T).sessionID = s.sessionID := by
  intro evs
  induction evs with
  | nil => intro s T; exact fireTicksLe_sessionID _ s T
  | cons te rest ih =>
    intro s T
    obtain ⟨t, e⟩ := te
    show (runEvents (applyEv e t (fireTicksLt (t + 1) s t)) rest
      T).sessionID = s.sessionID
    rw [ih, applyEv_sessionID, fireTicksLt_sessionID]

theorem sendHeartbeat_sent (t : Nat) (s : WSState HBMsg) :
    (sendHeartbeat t s).sent
      = s.sent ++ (if s.wsOpen then [mkHeartbeat t s.sessionID] else []) := by
  by_cases h : s.wsOpen = true
  · rw [sendHeartbeat_sent_open t s h, if_pos h]
  · unfold sendHeartbeat
    rw [if_neg h, if_neg h]
    simp

theorem tickFire_sent (h' : Nat) (s : WSState HBMsg) :
    (tickFire h' s).sent
      = s.sent ++ (if s.wsOpen then [mkHeartbeat h' s.sessionID] else []) := by
  rw [show (tickFire h' s).sent = (sendHeartbeat h' s).sent from rfl,
    sendHeartbeat_sent]

theorem fireTicksLe_sent_mem (fuel : Nat) :
    ∀ (s : WSState HBMsg) (T : Nat) (m : HBMsg),
      m ∈ (fireTicksLe fuel s T).sent →
      m ∈ s.sent ∨ m.sessionID = s.sessionID := by
  induction fuel with
  | zero => intro s T m hm; exact Or.inl hm
  | succ fuel ih =>
    intro s T m hm
    cases hn : s.hbNext with
    | none =>
      rw [fireTicksLe_none _ _ _ hn] at hm
      exact Or.inl hm
    | some h =>
      by_cases hle : h ≤ T
      · have hunf : fireTicksLe (fuel + 1) s T
            = fireTicksLe fuel (tickFire h s) T := by
          simp only [fireTicksLe, hn]
          rw [if_pos hle]
        rw [hunf] at hm
        rcases ih _ _ _ hm with h1 | h2
        · rw [tickFire_sent] at h1
          rcases List.mem_append.mp h1 with h3 | h4
          · exact Or.inl h3
          · right
            split at h4
            · rw [List.mem_singleton] at h4
              rw [h4]
              rfl
            · cases h4
        · right
          rw [tickFire_sessionID] at h2
          exact h2
      · rw [fireTicksLe_stop _ _ _ _ hn (by omega)] at hm
        exact Or.inl hm

theorem fireTicksLt_sent_mem (fuel : Nat) (s : WSState HBMsg) (t : Nat)
    (m : HBMsg) (hm : m ∈ (fireTicksLt fuel s t).sent) :
    m ∈ s.sent ∨ m.sessionID = s.sessionID := by
  cases t with
  | zero =>
    have hz : fireTicksLt fuel s 0 = s := by
      cases fuel with
      | zero => rfl
      | succ n =>
        cases hn : s.hbNext with
        | none => simp [fireTicksLt, hn]
        | some h =>
          simp only [fireTicksLt, hn]
          rw [if_neg (by omega)]
    rw [hz] at hm
    exact Or.inl hm
  | succ t' =>
    rw [fireTicksLt_eq_le _ _ _ (by omega)] at hm
    exact fireTicksLe_sent_mem fuel s _ m hm

theorem applyEv_sent_mem (e : WSEv) (t : Nat) (s : WSState HBMsg)
    (m : HBMsg) (hm : m ∈ (applyEv e t s).sent) :
    m ∈ s.sent ∨ m.sessionID = s.sessionID := by
  cases e with
  | openEv =>
    rw [show applyEv WSEv.openEv t s = onopen t s from rfl,
      onopen_sent] at hm
    rcases List.mem_append.mp hm with h1 | h2
    · exact Or.inl h1
    · right
      rw [List.mem_singleton] at h2
      rw [h2]
      rfl
  | closeEv =>
    rw [show applyEv WSEv.closeEv t s = onclose s from rfl,
      onclose_sent] at hm
    exact Or.inl hm

theorem runEvents_sent_mem :
    ∀ (evs : List (Nat × WSEv)) (s : WSState HBMsg) (T : Nat) (m : HBMsg),
      m ∈ (runEvents s evs T).sent →
      m ∈ s.sent ∨ m.sessionID = s.sessionID := by
  intro evs
  induction evs with
  | nil => intro s T m hm; exact fireTicksLe_sent_mem _ _ _ _ hm
  | cons te rest ih =>
    intro s T m hm
    obtain ⟨t, e⟩ := te
    have hm' : m ∈ (runEvents
        (applyEv e t (fireTicksLt (t + 1) s t)) rest T).sent := hm
    rcases ih _ T m hm' with h1 | h2
    · rcases applyEv_sent_mem e t _ m h1 with h3 | h4
      · exact fireTicksLt_sent_mem (t + 1) s t m h3
      · right
        rw [fireTicksLt_sessionID] at h4
        exact h4
    · right
      rw [applyEv_sessionID, fireTicksLt_sessionID] at h2
      exact h2

/-- Claim C9 (confirmed): the session identifier is created once (reusing
the stored value when present, storing the fresh one otherwise) and is
constant for the life of the client — unchanged by any sequence of
open/close (reconnect) events — and it is attached to every message the
run transmits (every outgoing heartbeat) and to the outgoing disconnect
notice built by the `beforeunload` handler. -/
theorem session_identifier_constant :
    (∀ (sid : String) (evs : List (Nat × WSEv)) (T : Nat),
      (runEvents (initWS sid) evs T).sessionID = sid) ∧
    (∀ (sid : String) (evs : List (Nat × WSEv)) (T : Nat) (m : HBMsg),
      m ∈ (runEvents (initWS sid) evs T).sent → m.sessionID = sid) ∧
    (∀ (stored : Option String) (fresh : String),
      (∀ x, stored = some x → x ≠ "") → fresh ≠ "" →
      beforeunloadMsg (initSession stored fresh).2
        = some { type := "disconnect",
                 sessionID := (initSession stored fresh).1 }) := by
  refine ⟨?_, ?_, ?_⟩
  · intro sid evs T
    exact runEvents_sessionID evs (initWS sid) T
  · intro sid evs T m hm
    rcases runEvents_sent_mem evs (initWS sid) T m hm with h1 | h2
    · exact absurd h1 (by simp [initWS])
    · exact h2
  · intro stored fresh hst hf
    cases stored with
    | none => simp [initSession, beforeunloadMsg, hf]
    | some x =>
      have hx : x ≠ "" := hst x rfl
      simp [initSession, beforeunloadMsg, hx]

/-- Witness for `session_identifier_constant`: the heartbeat sent on a
concrete open at `t = 0` carries the session identifier, and the
disconnect notice built from a fresh session carries the same
identifier. -/
theorem session_identifier_constant_witness :
    (mkHeartbeat 0 "sess").sessionID = "sess" ∧
    beforeunloadMsg (initSession none "sess").2
      = some { type := "disconnect",
               sessionID := (initSession none "sess").1 } :=
  ⟨session_identifier_constant.2.1 "sess" [(0, WSEv.openEv)] 0
      (mkHeartbeat 0 "sess") (by decide),
   session_identifier_constant.2.2 none "sess"
      (fun x hx => nomatch hx) (by decide)⟩

end RobotArm
